import Mathlib

/-!
Shallow embedding of the browser-side inference post-processing (the
specification's "Rank" operation) from the repository
`ml-model/scripts/simple_model_optimizer.py`: the `predict` method of the
generated `WildlifeDetector` JavaScript class (the JS source is embedded
as a string in the Python file, together with a smaller variant in
`scripts/convert_and_optimize.py`).

Modelling decisions:
- probabilities are rationals;
- the species mapping is a partial map from class index to name;
- the comparator sort `indexed.sort((a, b) => b.probability - a.probability)`
  (guaranteed stable by the ECMAScript standard) is modelled as a stable
  insertion sort with the order "a may come before b iff b.probability ≤
  a.probability", which is exactly "comparator(a, b) ≤ 0";
- `Math.round` is `round` on rationals (both round half up);
- the JS lookup `species_mapping[i] || placeholder` falls back on any falsy
  value, i.e. on a missing key and on the empty string.
-/

/-- Confidence thresholds loaded from `metadata.json`
(`confidence_thresholds.high_confidence` / `medium_confidence` /
`low_confidence`). -/
structure ConfidenceThresholds where
  high_confidence : ℚ
  medium_confidence : ℚ
  low_confidence : ℚ
deriving DecidableEq

/-- One entry of the ranked prediction list built by `predict`:
the object `{index, probability, species, confidence}` created by the
`map` call, with `confidenceLevel` attached by the post-sort `forEach`
pass (the field is the empty string before that pass, standing for the
JS object not yet having the property). -/
structure Prediction where
  index : ℕ
  probability : ℚ
  species : String
  confidence : ℤ
  confidenceLevel : String
deriving DecidableEq

/-- The species-name lookup with JS falsy fallback:
`this.metadata.species_mapping[i] || placeholder`, where the placeholder
is the string "Species " followed by the decimal index. A missing key
(and likewise an empty string value) falls back to the placeholder. -/
def speciesName (mapping : ℕ → Option String) (i : ℕ) : String :=
  match mapping i with
  | some s => if s = "" then "Species " ++ toString i else s
  | none => "Species " ++ toString i

/-- The indexed prediction array built by
`Array.from(predictions).map((p, i) => ({index: i, probability: p,
species: ..., confidence: Math.round(p * 100)}))`. -/
def mkIndexed (mapping : ℕ → Option String) (probs : List ℚ) : List Prediction :=
  probs.enum.map fun ip =>
    { index := ip.fst
      probability := ip.snd
      species := speciesName mapping ip.fst
      confidence := round (ip.snd * (100 : ℚ))
      confidenceLevel := "" }

/-- The order induced by the comparator
`(a, b) => b.probability - a.probability`: element `a` may be placed
before `b` exactly when the comparator result is ≤ 0, i.e. when
`b.probability ≤ a.probability`. -/
def probGE (a b : Prediction) : Prop := b.probability ≤ a.probability

instance : DecidableRel probGE := fun a b =>
  inferInstanceAs (Decidable (b.probability ≤ a.probability))

instance : IsTotal Prediction probGE :=
  ⟨fun a b => le_total b.probability a.probability⟩

instance : IsTrans Prediction probGE :=
  ⟨fun _ _ _ h1 h2 => le_trans h2 h1⟩

/-- The stable descending sort performed by
`indexed.sort((a, b) => b.probability - a.probability)`, modelled as a
stable insertion sort with respect to `probGE`. -/
def sortPredictions (l : List Prediction) : List Prediction :=
  l.insertionSort probGE

/-- The confidence-bucket assignment of the post-sort pass: "high" if the
probability is ≥ the high threshold, else "medium" if ≥ the medium
threshold, else "low". The code has no further case: there is no
"unclassified" bucket and the low threshold is never consulted. -/
def bucketOf (th : ConfidenceThresholds) (p : ℚ) : String :=
  if p ≥ th.high_confidence then "high"
  else if p ≥ th.medium_confidence then "medium"
  else "low"

/-- The `topPredictions.forEach(pred => pred.confidenceLevel = ...)` pass:
attach the confidence bucket computed from the entry's own probability. -/
def assignConfidenceLevel (th : ConfidenceThresholds) (p : Prediction) : Prediction :=
  { p with confidenceLevel := bucketOf th p.probability }

/-- The object returned by `predict`: the ranked list and the separately
exposed first entry `topPredictions[0]` (`none` models the JS value
`undefined` obtained when the list is empty). The `processingTime` and
`timestamp` fields are wall-clock data outside the embedding. -/
structure PredictResult where
  predictions : List Prediction
  topPrediction : Option Prediction
deriving DecidableEq

/-- The post-processing core of `WildlifeDetector.predict`: pair each
probability with its index, species name and rounded percentage; sort
descending by probability (stably); keep the first `topK` entries
(`slice(0, topK)`, which clamps an out-of-range `topK`); attach
confidence buckets; return the list together with its first element.
No input validation of any kind is performed. -/
def predict (probs : List ℚ) (mapping : ℕ → Option String)
    (th : ConfidenceThresholds) (topK : ℕ) : PredictResult :=
  let indexed := mkIndexed mapping probs
  let sorted := sortPredictions indexed
  let topPredictions := (sorted.take topK).map (assignConfidenceLevel th)
  { predictions := topPredictions
    topPrediction := topPredictions.head? }

/-- Numeric rank of a confidence-bucket name, used to state bucket
monotonicity. Any name other than the three produced by the code (for
instance the "unclassified" bucket that appears only in the
specification) ranks lowest. -/
def tierValue (s : String) : ℕ :=
  if s = "high" then 3 else if s = "medium" then 2 else if s = "low" then 1 else 0

/-- The specification example's thresholds: high 0.85, medium 0.65, low 0.45. -/
def exThresholds : ConfidenceThresholds :=
  { high_confidence := 85/100, medium_confidence := 65/100, low_confidence := 45/100 }

/-- The specification example's species mapping 0 ↦ Fox, 1 ↦ Bear, 2 ↦ Deer. -/
def exMapping : ℕ → Option String := fun i =>
  if i = 0 then some "Fox" else if i = 1 then some "Bear"
  else if i = 2 then some "Deer" else none

/-- The specification example's probability vector [0.1, 0.7, 0.2]. -/
def exProbs : List ℚ := [1/10, 7/10, 2/10]

/-- The first entry actually returned on the specification example. -/
def exBear : Prediction :=
  { index := 1, probability := 7/10, species := "Bear", confidence := 70,
    confidenceLevel := "medium" }

/-- The second entry actually returned on the specification example
(bucket "low", not "unclassified"). -/
def exDeer : Prediction :=
  { index := 2, probability := 2/10, species := "Deer", confidence := 20,
    confidenceLevel := "low" }

/-- A probability vector with a tie between indices 0 and 2. -/
def tieProbs : List ℚ := [1/2, 3/10, 1/2]

/-- First output entry on `tieProbs`: the tied entry with the smaller index. -/
def tieFox : Prediction :=
  { index := 0, probability := 1/2, species := "Fox", confidence := 50,
    confidenceLevel := "low" }

/-- Second output entry on `tieProbs`: the tied entry with the larger index. -/
def tieDeer : Prediction :=
  { index := 2, probability := 1/2, species := "Deer", confidence := 50,
    confidenceLevel := "low" }

/-- Third output entry on `tieProbs`. -/
def tieBear : Prediction :=
  { index := 1, probability := 3/10, species := "Bear", confidence := 30,
    confidenceLevel := "low" }

/-- A species mapping defined only at index 0, leaving index 1 unmapped. -/
def gapMapping : ℕ → Option String := fun i => if i = 0 then some "Fox" else none

/-- A probability vector of length 2 used with `gapMapping`. -/
def gapProbs : List ℚ := [2/10, 9/10]

/-- First output entry on `gapProbs`: index 1 is absent from `gapMapping`,
so the placeholder name "Species 1" is synthesized. -/
def gapSpecies1 : Prediction :=
  { index := 1, probability := 9/10, species := "Species 1", confidence := 90,
    confidenceLevel := "high" }

/-- Second output entry on `gapProbs`. -/
def gapFox : Prediction :=
  { index := 0, probability := 2/10, species := "Fox", confidence := 20,
    confidenceLevel := "low" }

/-! ### Basic facts about the embedding -/

theorem mkIndexed_length (m : ℕ → Option String) (probs : List ℚ) :
    (mkIndexed m probs).length = probs.length := by
  simp [mkIndexed]

theorem mkIndexed_get (m : ℕ → Option String) (probs : List ℚ) (i : ℕ)
    (h : i < (mkIndexed m probs).length) (h2 : i < probs.length) :
    (mkIndexed m probs).get ⟨i, h⟩ =
      { index := i
        probability := probs.get ⟨i, h2⟩
        species := speciesName m i
        confidence := round (probs.get ⟨i, h2⟩ * (100 : ℚ))
        confidenceLevel := "" } := by
  simp [mkIndexed]

theorem mem_mkIndexed_eq_get (m : ℕ → Option String) (probs : List ℚ)
    (x : Prediction) (hx : x ∈ mkIndexed m probs) :
    ∃ h : x.index < (mkIndexed m probs).length,
      (mkIndexed m probs).get ⟨x.index, h⟩ = x := by
  obtain ⟨⟨i, hi⟩, hget⟩ := List.mem_iff_get.mp hx
  have h2 : i < probs.length := by
    have := hi
    rwa [mkIndexed_length] at this
  have hidx : x.index = i := by
    rw [← hget, mkIndexed_get m probs i hi h2]
  rw [hidx]
  exact ⟨hi, hget⟩

theorem mem_mkIndexed_facts (m : ℕ → Option String) (probs : List ℚ)
    (x : Prediction) (hx : x ∈ mkIndexed m probs) :
    x.index < probs.length ∧ probs[x.index]? = some x.probability ∧
      x.species = speciesName m x.index := by
  obtain ⟨h, hget⟩ := mem_mkIndexed_eq_get m probs x hx
  have h2 : x.index < probs.length := by
    have := h
    rwa [mkIndexed_length] at this
  rw [mkIndexed_get m probs x.index h h2] at hget
  refine ⟨h2, ?_, ?_⟩
  · rw [← hget]
    simp [List.getElem?_eq_getElem h2]
  · rw [← hget]

theorem mkIndexed_map_index (m : ℕ → Option String) (probs : List ℚ) :
    (mkIndexed m probs).map Prediction.index = List.range probs.length := by
  rw [mkIndexed, List.map_map]
  exact List.enum_map_fst probs

theorem nodup_mkIndexed (m : ℕ → Option String) (probs : List ℚ) :
    (mkIndexed m probs).Nodup := by
  have h : ((mkIndexed m probs).map Prediction.index).Nodup := by
    rw [mkIndexed_map_index]
    exact List.nodup_range _
  exact List.Nodup.of_map _ h

theorem sortPredictions_perm (l : List Prediction) : List.Perm (sortPredictions l) l :=
  List.perm_insertionSort probGE l

theorem sortPredictions_sorted (l : List Prediction) :
    List.Sorted probGE (sortPredictions l) :=
  List.sorted_insertionSort probGE l

theorem sortPredictions_length (l : List Prediction) :
    (sortPredictions l).length = l.length :=
  (sortPredictions_perm l).length_eq

theorem assign_index (th : ConfidenceThresholds) (p : Prediction) :
    (assignConfidenceLevel th p).index = p.index := rfl

theorem assign_probability (th : ConfidenceThresholds) (p : Prediction) :
    (assignConfidenceLevel th p).probability = p.probability := rfl

theorem assign_species (th : ConfidenceThresholds) (p : Prediction) :
    (assignConfidenceLevel th p).species = p.species := rfl

theorem assign_confidenceLevel (th : ConfidenceThresholds) (p : Prediction) :
    (assignConfidenceLevel th p).confidenceLevel = bucketOf th p.probability := rfl

theorem predict_predictions_def (probs : List ℚ) (m : ℕ → Option String)
    (th : ConfidenceThresholds) (k : ℕ) :
    (predict probs m th k).predictions =
      ((sortPredictions (mkIndexed m probs)).take k).map (assignConfidenceLevel th) := rfl

theorem predict_topPrediction_def (probs : List ℚ) (m : ℕ → Option String)
    (th : ConfidenceThresholds) (k : ℕ) :
    (predict probs m th k).topPrediction = (predict probs m th k).predictions.head? := rfl

theorem predictions_length (probs : List ℚ) (m : ℕ → Option String)
    (th : ConfidenceThresholds) (k : ℕ) :
    (predict probs m th k).predictions.length = min k probs.length := by
  rw [predict_predictions_def]
  simp [sortPredictions_length, mkIndexed_length]

/-! ### Concrete evaluations of `predict` -/

theorem predict_example_eval :
    (predict exProbs exMapping exThresholds 2).predictions = [exBear, exDeer] := by
  norm_num [predict, exProbs, exMapping, exThresholds, mkIndexed, sortPredictions,
    speciesName, assignConfidenceLevel, bucketOf, probGE, exBear, exDeer,
    List.insertionSort, List.orderedInsert, List.enum, List.enumFrom, round_eq]
  decide

theorem predict_tie_eval :
    (predict tieProbs exMapping exThresholds 3).predictions = [tieFox, tieDeer, tieBear] := by
  norm_num [predict, tieProbs, exMapping, exThresholds, mkIndexed, sortPredictions,
    speciesName, assignConfidenceLevel, bucketOf, probGE, tieFox, tieDeer, tieBear,
    List.insertionSort, List.orderedInsert, List.enum, List.enumFrom, round_eq]
  decide

theorem predict_gap_eval :
    (predict gapProbs gapMapping exThresholds 2).predictions = [gapSpecies1, gapFox] := by
  norm_num [predict, gapProbs, gapMapping, exThresholds, mkIndexed, sortPredictions,
    speciesName, assignConfidenceLevel, bucketOf, probGE, gapSpecies1, gapFox,
    List.insertionSort, List.orderedInsert, List.enum, List.enumFrom, round_eq]
  decide

/-! ### Claim C1 — input validation -/

/-- C1 counterexample: the claim says that a topK out of range (0, or 4 for a
length-3 vector) or a probabilities/mapping size mismatch raises InvalidInput
and no result list is returned. The code has no validation at all: with
topK = 4 > 3 it returns a (partial) 3-element list, with topK = 0 an empty
list, and with a length-2 vector against a mapping defined only at index 0 a
normal 2-element list. -/
theorem predict_invalid_inputs_still_return :
    (predict exProbs exMapping exThresholds 4).predictions.length = 3 ∧
      (predict exProbs exMapping exThresholds 0).predictions.length = 0 ∧
      (predict gapProbs gapMapping exThresholds 2).predictions.length = 2 := by
  refine ⟨?_, ?_, ?_⟩ <;> simp [predictions_length, exProbs, gapProbs]

/-- C1 amended: the code performs no input validation and never raises an
InvalidInput error: for every probabilities vector, species mapping,
thresholds and topK, `predict` returns a result whose prediction list has
length min(topK, N) — topK out of range is clamped by `slice`, and a
mapping-size mismatch is ignored (lookup misses fall back to placeholder
names). -/
theorem predict_total_no_validation (probs : List ℚ) (m : ℕ → Option String)
    (th : ConfidenceThresholds) (k : ℕ) :
    (predict probs m th k).predictions.length = min k probs.length :=
  predictions_length probs m th k

/-! ### Claim C2 — confidence buckets -/

/-- C2 counterexample: with thresholds (high 0.85, medium 0.65, low 0.45), a
selected prediction whose probability 0.3 is below the low threshold is
bucketed "low" by the code, not "unclassified" as the claim requires (the
code's final else branch assigns "low" unconditionally, never consulting the
low threshold). -/
theorem predict_bucket_below_low_is_low :
    ((predict tieProbs exMapping exThresholds 3).predictions.map
        Prediction.confidenceLevel) = ["low", "low", "low"] ∧
      ("low" : String) ≠ "unclassified" := by
  refine ⟨?_, by decide⟩
  rw [predict_tie_eval]
  rfl

/-- C2 amended: for every selected prediction, the assigned confidence bucket
is "high" if its probability ≥ thresholds.high; else "medium" if probability
≥ thresholds.medium; else "low". The low threshold plays no role and the
bucket "unclassified" is never assigned. -/
theorem predict_bucket_assignment (probs : List ℚ) (m : ℕ → Option String)
    (th : ConfidenceThresholds) (k : ℕ) :
    ∀ x ∈ (predict probs m th k).predictions,
      x.confidenceLevel = bucketOf th x.probability ∧
        x.confidenceLevel ≠ "unclassified" := by
  intro x hx
  rw [predict_predictions_def] at hx
  obtain ⟨y, _, rfl⟩ := List.mem_map.mp hx
  rw [assign_confidenceLevel, assign_probability]
  refine ⟨rfl, ?_⟩
  rw [bucketOf]
  split_ifs <;> decide

/-- C2 witness: the first entry returned on the specification example is in
the output and its bucket agrees with `bucketOf` at its probability. -/
theorem predict_bucket_assignment_witness :
    exBear ∈ (predict exProbs exMapping exThresholds 2).predictions ∧
      (exBear.confidenceLevel = bucketOf exThresholds exBear.probability ∧
        exBear.confidenceLevel ≠ "unclassified") := by
  have hmem : exBear ∈ (predict exProbs exMapping exThresholds 2).predictions := by
    rw [predict_example_eval]
    exact List.mem_cons_self _ _
  exact ⟨hmem, predict_bucket_assignment exProbs exMapping exThresholds 2 exBear hmem⟩

/-! ### Claim C4 — the specification's worked example -/

/-- C4 counterexample: on probabilities [0.1, 0.7, 0.2], the Fox/Bear/Deer
mapping, thresholds (0.85, 0.65, 0.45) and topK = 2, the returned
(index, probability, species, bucket) tuples are not the ones the claim
lists: the second entry's bucket is "low", not "unclassified". -/
theorem predict_example_differs_from_claim :
    ((predict exProbs exMapping exThresholds 2).predictions.map
        (fun x => (x.index, x.probability, x.species, x.confidenceLevel))) ≠
      [(1, 7/10, "Bear", "medium"), (2, 2/10, "Deer", "unclassified")] := by
  rw [predict_example_eval]
  intro h
  simp [exBear, exDeer] at h

/-- C4 amended: on the specification example the code returns exactly the two
entries the claim lists, except that the second entry's bucket is "low"
instead of "unclassified". -/
theorem predict_example_output :
    ((predict exProbs exMapping exThresholds 2).predictions.map
        (fun x => (x.index, x.probability, x.species, x.confidenceLevel))) =
      [(1, 7/10, "Bear", "medium"), (2, 2/10, "Deer", "low")] := by
  rw [predict_example_eval]
  rfl

/-! ### Claim C7 — bucket monotonicity -/

/-- C7: for thresholds ordered high ≥ medium ≥ low and probabilities p ≤ q,
the bucket assigned to q is never a lower confidence tier than the bucket
assigned to p. -/
theorem bucketOf_monotone (th : ConfidenceThresholds) (p q : ℚ)
    (h1 : th.medium_confidence ≤ th.high_confidence)
    (h2 : th.low_confidence ≤ th.medium_confidence)
    (hpq : p ≤ q) :
    tierValue (bucketOf th p) ≤ tierValue (bucketOf th q) := by
  rw [bucketOf, bucketOf]
  split_ifs <;> first
  | decide
  | (exfalso; linarith)

/-- C7 witness: with the example thresholds, 0.5 is bucketed no higher
than 0.7. -/
theorem bucketOf_monotone_witness :
    exThresholds.medium_confidence ≤ exThresholds.high_confidence ∧
      exThresholds.low_confidence ≤ exThresholds.medium_confidence ∧
      ((1:ℚ)/2 ≤ 7/10) ∧
      tierValue (bucketOf exThresholds (1/2)) ≤ tierValue (bucketOf exThresholds (7/10)) := by
  have h1 : exThresholds.medium_confidence ≤ exThresholds.high_confidence := by
    norm_num [exThresholds]
  have h2 : exThresholds.low_confidence ≤ exThresholds.medium_confidence := by
    norm_num [exThresholds]
  have h3 : (1:ℚ)/2 ≤ 7/10 := by norm_num
  exact ⟨h1, h2, h3, bucketOf_monotone exThresholds (1/2) (7/10) h1 h2 h3⟩

/-! ### Claim C8 — the separately exposed top entry -/

/-- C8: on every valid input (topK ≥ 1 and a nonempty probabilities vector)
the prediction list is nonempty and the separately exposed `topPrediction`
is exactly its first element (`topPredictions[0]`). -/
theorem predict_topPrediction_is_first (probs : List ℚ) (m : ℕ → Option String)
    (th : ConfidenceThresholds) (k : ℕ) (h1 : 1 ≤ k) (h2 : 1 ≤ probs.length) :
    (predict probs m th k).predictions ≠ [] ∧
      (predict probs m th k).topPrediction = (predict probs m th k).predictions.head? := by
  refine ⟨?_, rfl⟩
  have hlen := predictions_length probs m th k
  intro hnil
  rw [hnil] at hlen
  simp at hlen
  omega

/-- C8 witness: on the specification example with topK = 2 the list is
nonempty and `topPrediction` is its head. -/
theorem predict_topPrediction_is_first_witness :
    1 ≤ 2 ∧ 1 ≤ exProbs.length ∧
      ((predict exProbs exMapping exThresholds 2).predictions ≠ [] ∧
        (predict exProbs exMapping exThresholds 2).topPrediction =
          (predict exProbs exMapping exThresholds 2).predictions.head?) := by
  have h2 : 1 ≤ exProbs.length := by simp [exProbs]
  exact ⟨by decide, h2,
    predict_topPrediction_is_first exProbs exMapping exThresholds 2 (by decide) h2⟩

/-! ### Claim C9 — purity -/

/-- C9: the post-processing is a pure function of its inputs: two runs on
identical probabilities, species mapping, thresholds and topK produce
identical results (and, the inputs being values of the embedding, nothing
is modified by a call). -/
theorem predict_deterministic (p₁ p₂ : List ℚ) (m₁ m₂ : ℕ → Option String)
    (t₁ t₂ : ConfidenceThresholds) (k₁ k₂ : ℕ)
    (hp : p₁ = p₂) (hm : m₁ = m₂) (ht : t₁ = t₂) (hk : k₁ = k₂) :
    predict p₁ m₁ t₁ k₁ = predict p₂ m₂ t₂ k₂ := by
  subst hp
  subst hm
  subst ht
  subst hk
  rfl

/-- C9 witness: two runs on the specification example coincide. -/
theorem predict_deterministic_witness :
    predict exProbs exMapping exThresholds 2 = predict exProbs exMapping exThresholds 2 :=
  predict_deterministic exProbs exProbs exMapping exMapping exThresholds exThresholds 2 2
    rfl rfl rfl rfl

/-! ### Claim C3 — exactly topK results, sorted descending -/

/-- C3: for every probability vector of length N and every topK with
1 ≤ topK ≤ N, the code returns exactly topK prediction results whose
probabilities are non-increasing along the list. -/
theorem predict_topK_length_sorted (probs : List ℚ) (m : ℕ → Option String)
    (th : ConfidenceThresholds) (k : ℕ) (h1 : 1 ≤ k) (h2 : k ≤ probs.length) :
    (predict probs m th k).predictions.length = k ∧
      (predict probs m th k).predictions.Pairwise
        (fun x y => y.probability ≤ x.probability) := by
  constructor
  · rw [predictions_length]
    omega
  · rw [predict_predictions_def, List.pairwise_map]
    have hs : List.Pairwise probGE (sortPredictions (mkIndexed m probs)) :=
      sortPredictions_sorted (mkIndexed m probs)
    have ht : List.Pairwise probGE ((sortPredictions (mkIndexed m probs)).take k) :=
      List.Pairwise.sublist (List.take_sublist k _) hs
    exact List.Pairwise.imp (fun hab => hab) ht

/-- C3 witness: on the specification example with topK = 2 the output has
length 2 and non-increasing probabilities. -/
theorem predict_topK_length_sorted_witness :
    1 ≤ 2 ∧ 2 ≤ exProbs.length ∧
      ((predict exProbs exMapping exThresholds 2).predictions.length = 2 ∧
        (predict exProbs exMapping exThresholds 2).predictions.Pairwise
          (fun x y => y.probability ≤ x.probability)) := by
  have h2 : 2 ≤ exProbs.length := by simp [exProbs]
  exact ⟨by decide, h2,
    predict_topK_length_sorted exProbs exMapping exThresholds 2 (by decide) h2⟩

/-! ### Claim C6 — placeholder names for unmapped indices -/

/-- C6: every returned prediction whose index is absent from the species
mapping carries the synthesized placeholder name "Species " followed by the
index; the lookup miss is not an error (`predict` still returns normally). -/
theorem predict_missing_species_placeholder (probs : List ℚ)
    (m : ℕ → Option String) (th : ConfidenceThresholds) (k : ℕ) (x : Prediction)
    (hx : x ∈ (predict probs m th k).predictions) (hmiss : m x.index = none) :
    x.species = "Species " ++ toString x.index := by
  rw [predict_predictions_def] at hx
  obtain ⟨y, hy, rfl⟩ := List.mem_map.mp hx
  rw [assign_index] at hmiss
  rw [assign_species]
  have hy2 : y ∈ sortPredictions (mkIndexed m probs) :=
    (List.take_sublist k _).subset hy
  have hy3 : y ∈ mkIndexed m probs := (sortPredictions_perm _).mem_iff.mp hy2
  have hfacts := mem_mkIndexed_facts m probs y hy3
  rw [hfacts.2.2, speciesName, hmiss, assign_index]

/-- C6 witness: on `gapProbs` with `gapMapping` (defined only at index 0),
the top entry has index 1, absent from the mapping, and name "Species 1". -/
theorem predict_missing_species_placeholder_witness :
    gapSpecies1 ∈ (predict gapProbs gapMapping exThresholds 2).predictions ∧
      gapMapping gapSpecies1.index = none ∧
      gapSpecies1.species = "Species " ++ toString gapSpecies1.index := by
  have hmem : gapSpecies1 ∈ (predict gapProbs gapMapping exThresholds 2).predictions := by
    rw [predict_gap_eval]
    exact List.mem_cons_self _ _
  have hmiss : gapMapping gapSpecies1.index = none := rfl
  exact ⟨hmem, hmiss,
    predict_missing_species_placeholder gapProbs gapMapping exThresholds 2 gapSpecies1
      hmem hmiss⟩

/-! ### Claim C10 — structural output invariants -/

/-- C10: for every probability vector of length N and every topK, the
returned list has length min(topK, N), its entries carry pairwise-distinct
indices, and every entry's index is in range with its probability equal to
the input vector's value at that index. -/
theorem predict_output_invariants (probs : List ℚ) (m : ℕ → Option String)
    (th : ConfidenceThresholds) (k : ℕ) :
    (predict probs m th k).predictions.length = min k probs.length ∧
      ((predict probs m th k).predictions.map Prediction.index).Nodup ∧
      ∀ x ∈ (predict probs m th k).predictions,
        x.index < probs.length ∧ probs[x.index]? = some x.probability := by
  refine ⟨predictions_length probs m th k, ?_, ?_⟩
  · rw [predict_predictions_def, List.map_map]
    have hcomp : Prediction.index ∘ assignConfidenceLevel th = Prediction.index := by
      funext p
      rfl
    rw [hcomp, List.map_take]
    have hperm : List.Perm ((sortPredictions (mkIndexed m probs)).map Prediction.index)
        ((mkIndexed m probs).map Prediction.index) :=
      (sortPredictions_perm _).map _
    have hnd : ((sortPredictions (mkIndexed m probs)).map Prediction.index).Nodup := by
      rw [hperm.nodup_iff, mkIndexed_map_index]
      exact List.nodup_range _
    exact List.Nodup.sublist (List.take_sublist _ _) hnd
  · intro x hx
    rw [predict_predictions_def] at hx
    obtain ⟨y, hy, rfl⟩ := List.mem_map.mp hx
    have hy3 : y ∈ mkIndexed m probs :=
      (sortPredictions_perm _).mem_iff.mp ((List.take_sublist k _).subset hy)
    have hfacts := mem_mkIndexed_facts m probs y hy3
    rw [assign_index, assign_probability]
    exact ⟨hfacts.1, hfacts.2.1⟩

/-- C10 witness: on `tieProbs` the first returned entry is a member of the
output, its index is in range and its probability field equals the input
vector's value at that index. -/
theorem predict_output_invariants_witness :
    tieFox ∈ (predict tieProbs exMapping exThresholds 3).predictions ∧
      (tieFox.index < tieProbs.length ∧ tieProbs[tieFox.index]? = some tieFox.probability) := by
  have hmem : tieFox ∈ (predict tieProbs exMapping exThresholds 3).predictions := by
    rw [predict_tie_eval]
    exact List.mem_cons_self _ _
  exact ⟨hmem,
    (predict_output_invariants tieProbs exMapping exThresholds 3).2.2 tieFox hmem⟩

/-! ### Claim C5 — stability of the descending sort -/

/-- Two positions of a list, in order, form a two-element sublist. -/
theorem pair_get_sublist {α : Type u_1} (l : List α) (a b : ℕ)
    (ha : a < l.length) (hb : b < l.length) (hab : a < b) :
    List.Sublist [l.get ⟨a, ha⟩, l.get ⟨b, hb⟩] l := by
  have hta : a < (l.take b).length := by
    rw [List.length_take]
    omega
  have h1 : List.Sublist [l.get ⟨a, ha⟩] (l.take b) := by
    rw [List.singleton_sublist]
    have heq : (l.take b).get ⟨a, hta⟩ = l.get ⟨a, ha⟩ := by
      simp [List.getElem_take]
    rw [← heq]
    exact List.get_mem _ _ _
  have hdb : 0 < (l.drop b).length := by
    rw [List.length_drop]
    omega
  have h2 : List.Sublist [l.get ⟨b, hb⟩] (l.drop b) := by
    rw [List.singleton_sublist]
    have heq : (l.drop b).get ⟨0, hdb⟩ = l.get ⟨b, hb⟩ := by
      simp [List.getElem_drop]
    rw [← heq]
    exact List.get_mem _ _ _
  have h3 := List.Sublist.append h1 h2
  rwa [List.take_append_drop] at h3

/-- In a duplicate-free list, the first element of a two-element sublist
occurs at a strictly earlier position than the second. -/
theorem pair_sublist_position {α : Type u_1} {u v : α} :
    ∀ (s : List α), List.Sublist [u, v] s → s.Nodup →
      ∀ (a b : ℕ) (ha : a < s.length) (hb : b < s.length),
        s.get ⟨a, ha⟩ = u → s.get ⟨b, hb⟩ = v → a < b := by
  intro s
  induction s with
  | nil =>
    intro hsub
    simp at hsub
  | cons w t ih =>
    intro hsub hnd a b ha hb hu hv
    obtain ⟨hwt, hndt⟩ := List.nodup_cons.mp hnd
    cases hsub with
    | cons a0 h =>
      have hut : u ∈ t := h.subset (by simp)
      have hvt : v ∈ t := h.subset (by simp)
      cases a with
      | zero =>
        exfalso
        apply hwt
        have hw : w = u := by simpa using hu
        rw [hw]
        exact hut
      | succ a2 =>
        cases b with
        | zero =>
          exfalso
          apply hwt
          have hw : w = v := by simpa using hv
          rw [hw]
          exact hvt
        | succ b2 =>
          have ha2 : a2 < t.length := by simpa using ha
          have hb2 : b2 < t.length := by simpa using hb
          have hlt := ih h hndt a2 b2 ha2 hb2 (by simpa using hu) (by simpa using hv)
          omega
    | cons₂ a0 h =>
      have hvt : v ∈ t := List.singleton_sublist.mp h
      cases b with
      | zero =>
        exfalso
        apply hwt
        have hw : u = v := by simpa using hv
        rw [hw]
        exact hvt
      | succ b2 =>
        cases a with
        | zero => omega
        | succ a2 =>
          exfalso
          apply hwt
          have ha2 : a2 < t.length := by simpa using ha
          have hu2 : t.get ⟨a2, ha2⟩ = u := by simpa using hu
          rw [← hu2]
          exact List.get_mem _ _ _

/-- C5: the descending sort is stable: whenever two returned entries carry
equal probabilities, the one appearing earlier in the output has the
strictly smaller original index. -/
theorem predict_sort_stable (probs : List ℚ) (m : ℕ → Option String)
    (th : ConfidenceThresholds) (k a b : ℕ) (x y : Prediction)
    (hx : (predict probs m th k).predictions[a]? = some x)
    (hy : (predict probs m th k).predictions[b]? = some y)
    (hab : a < b) (hprob : x.probability = y.probability) :
    x.index < y.index := by
  rw [predict_predictions_def] at hx hy
  obtain ⟨ha1, hxa⟩ := List.getElem?_eq_some.mp hx
  obtain ⟨hb1, hyb⟩ := List.getElem?_eq_some.mp hy
  have ha2 : a < ((sortPredictions (mkIndexed m probs)).take k).length := by
    simpa using ha1
  have hb2 : b < ((sortPredictions (mkIndexed m probs)).take k).length := by
    simpa using hb1
  have ha3 : a < (sortPredictions (mkIndexed m probs)).length := by
    rw [List.length_take] at ha2
    exact lt_of_lt_of_le ha2 inf_le_right
  have hb3 : b < (sortPredictions (mkIndexed m probs)).length := by
    rw [List.length_take] at hb2
    exact lt_of_lt_of_le hb2 inf_le_right
  have hxu : assignConfidenceLevel th
      ((sortPredictions (mkIndexed m probs)).get ⟨a, ha3⟩) = x := by
    rw [← hxa]
    simp [List.getElem_take]
  have hyv : assignConfidenceLevel th
      ((sortPredictions (mkIndexed m probs)).get ⟨b, hb3⟩) = y := by
    rw [← hyb]
    simp [List.getElem_take]
  have hprob2 : ((sortPredictions (mkIndexed m probs)).get ⟨a, ha3⟩).probability =
      ((sortPredictions (mkIndexed m probs)).get ⟨b, hb3⟩).probability := by
    have h1 : ((sortPredictions (mkIndexed m probs)).get ⟨a, ha3⟩).probability =
        x.probability := by
      rw [← hxu]
      rfl
    have h2 : ((sortPredictions (mkIndexed m probs)).get ⟨b, hb3⟩).probability =
        y.probability := by
      rw [← hyv]
      rfl
    rw [h1, h2, hprob]
  have hu_mem : (sortPredictions (mkIndexed m probs)).get ⟨a, ha3⟩ ∈ mkIndexed m probs :=
    (sortPredictions_perm _).mem_iff.mp (List.get_mem _ _ _)
  have hv_mem : (sortPredictions (mkIndexed m probs)).get ⟨b, hb3⟩ ∈ mkIndexed m probs :=
    (sortPredictions_perm _).mem_iff.mp (List.get_mem _ _ _)
  obtain ⟨hiu, hgu⟩ := mem_mkIndexed_eq_get m probs _ hu_mem
  obtain ⟨hiv, hgv⟩ := mem_mkIndexed_eq_get m probs _ hv_mem
  have hnds : (sortPredictions (mkIndexed m probs)).Nodup :=
    (sortPredictions_perm _).nodup_iff.mpr (nodup_mkIndexed m probs)
  have hneq : ((sortPredictions (mkIndexed m probs)).get ⟨a, ha3⟩).index ≠
      ((sortPredictions (mkIndexed m probs)).get ⟨b, hb3⟩).index := by
    intro he
    have h3 : (mkIndexed m probs).get
          ⟨((sortPredictions (mkIndexed m probs)).get ⟨a, ha3⟩).index, hiu⟩ =
        (mkIndexed m probs).get
          ⟨((sortPredictions (mkIndexed m probs)).get ⟨b, hb3⟩).index, hiv⟩ := by
      congr 1
      exact Fin.ext he
    have h4 := (hgu.symm.trans h3).trans hgv
    have h5 := List.nodup_iff_injective_get.mp hnds h4
    have h6 : a = b := congrArg Fin.val h5
    omega
  have hgoal : ((sortPredictions (mkIndexed m probs)).get ⟨a, ha3⟩).index <
      ((sortPredictions (mkIndexed m probs)).get ⟨b, hb3⟩).index := by
    rcases lt_trichotomy ((sortPredictions (mkIndexed m probs)).get ⟨a, ha3⟩).index
        ((sortPredictions (mkIndexed m probs)).get ⟨b, hb3⟩).index with hlt | heq | hgt
    · exact hlt
    · exact absurd heq hneq
    · exfalso
      have hpair := pair_get_sublist (mkIndexed m probs)
        (((sortPredictions (mkIndexed m probs)).get ⟨b, hb3⟩).index)
        (((sortPredictions (mkIndexed m probs)).get ⟨a, ha3⟩).index) hiv hiu hgt
      rw [hgv, hgu] at hpair
      have hle : probGE ((sortPredictions (mkIndexed m probs)).get ⟨b, hb3⟩)
          ((sortPredictions (mkIndexed m probs)).get ⟨a, ha3⟩) := le_of_eq hprob2
      have hpair2 : List.Sublist
          [(sortPredictions (mkIndexed m probs)).get ⟨b, hb3⟩,
            (sortPredictions (mkIndexed m probs)).get ⟨a, ha3⟩]
          (sortPredictions (mkIndexed m probs)) :=
        List.pair_sublist_insertionSort (r := probGE) hle hpair
      have hba := pair_sublist_position (sortPredictions (mkIndexed m probs))
        hpair2 hnds b a hb3 ha3 rfl rfl
      omega
  have hxi : x.index = ((sortPredictions (mkIndexed m probs)).get ⟨a, ha3⟩).index := by
    rw [← hxu]
    rfl
  have hyi : y.index = ((sortPredictions (mkIndexed m probs)).get ⟨b, hb3⟩).index := by
    rw [← hyv]
    rfl
  rw [hxi, hyi]
  exact hgoal

/-- C5 witness: on `tieProbs` the tied entries (indices 0 and 2, both with
probability 1/2) appear in index order in the output. -/
theorem predict_sort_stable_witness :
    (predict tieProbs exMapping exThresholds 3).predictions[0]? = some tieFox ∧
      (predict tieProbs exMapping exThresholds 3).predictions[1]? = some tieDeer ∧
      (0:ℕ) < 1 ∧ tieFox.probability = tieDeer.probability ∧ tieFox.index < tieDeer.index := by
  have h0 : (predict tieProbs exMapping exThresholds 3).predictions[0]? = some tieFox := by
    rw [predict_tie_eval]
    rfl
  have h1 : (predict tieProbs exMapping exThresholds 3).predictions[1]? = some tieDeer := by
    rw [predict_tie_eval]
    rfl
  exact ⟨h0, h1, by decide, rfl,
    predict_sort_stable tieProbs exMapping exThresholds 3 0 1 tieFox tieDeer h0 h1
      (by decide) rfl⟩
